import Mathlib

/-!
Verification of the authentication/authorization core of `src/server.js`
(an Express application issuing and checking signed bearer tokens).

Strings on the HTTP wire (the `Authorization` header and the token it
carries) are modelled as `List Char`, so that the JavaScript
`authHeader.split(' ')[1]` extraction can be modelled faithfully.
The external libraries `jsonwebtoken` and `bcryptjs` are not part of the
repository; they are modelled from the spec (sections 4.1 to 4.3 and 6):
an idealized one-way password hash, and a signed, compact, self-contained
token string that serializes the claims payload together with a signature
computed from the signing secret and the payload.
-/

/-! ### Decimal digit codec (wire alphabet for the modelled token string) -/

/-- Character for a single decimal digit (digits are the token alphabet). -/
def digitChar : Nat → Char
  | 0 => '0'
  | 1 => '1'
  | 2 => '2'
  | 3 => '3'
  | 4 => '4'
  | 5 => '5'
  | 6 => '6'
  | 7 => '7'
  | 8 => '8'
  | _ => '9'

/-- Numeric value of a decimal digit character; `none` on any other char. -/
def digitVal (c : Char) : Option Nat :=
  if c = '0' then some 0
  else if c = '1' then some 1
  else if c = '2' then some 2
  else if c = '3' then some 3
  else if c = '4' then some 4
  else if c = '5' then some 5
  else if c = '6' then some 6
  else if c = '7' then some 7
  else if c = '8' then some 8
  else if c = '9' then some 9
  else none

/-- Little-endian decimal digits of `n`, with explicit fuel so that the
recursion is structural (kernel-reducible). `natDigitsAux fuel n` is the
digit list of `n` whenever `n ≤ fuel`. -/
def natDigitsAux : Nat → Nat → List Nat
  | 0, _ => []
  | _ + 1, 0 => []
  | fuel + 1, n + 1 => (n + 1) % 10 :: natDigitsAux fuel ((n + 1) / 10)

/-- Little-endian decimal digits of `n` (empty list for `0`). -/
def natDigits (n : Nat) : List Nat := natDigitsAux n n

/-- Value of a little-endian digit list. -/
def ofDigitsLE : List Nat → Nat
  | [] => 0
  | d :: ds => d + 10 * ofDigitsLE ds

/-- Serialize a natural number as little-endian decimal digit characters. -/
def serNat (n : Nat) : List Char := (natDigits n).map digitChar

/-- Parse a maximal run of decimal digit characters (little-endian) from the
front of the list; returns the value and the unconsumed remainder. An empty
digit run parses as `0`. -/
def parseNatAux : List Char → Nat × List Char
  | [] => (0, [])
  | c :: cs =>
    match digitVal c with
    | some d =>
      let r := parseNatAux cs
      (d + 10 * r.1, r.2)
    | none => (0, c :: cs)

/-! ### String and string-list serialization inside the token -/

/-- Serialize characters as `code ','` groups. -/
def serCodes : List Char → List Char
  | [] => []
  | c :: cs => serNat c.toNat ++ ',' :: serCodes cs

/-- Serialize a string: length, `';'`, then the character-code groups. -/
def serStr (s : String) : List Char := serNat s.length ++ ';' :: serCodes s.toList

/-- Parse exactly `k` character-code groups. -/
def parseCodes : Nat → List Char → Option (List Char × List Char)
  | 0, l => some ([], l)
  | k + 1, l =>
    let r := parseNatAux l
    match r.2 with
    | c :: rest =>
      if c = ',' then
        match parseCodes k rest with
        | some (cs, rest2) => some (Char.ofNat r.1 :: cs, rest2)
        | none => none
      else none
    | [] => none

/-- Parse a serialized string. -/
def parseStr (l : List Char) : Option (String × List Char) :=
  let r := parseNatAux l
  match r.2 with
  | c :: rest =>
    if c = ';' then
      match parseCodes r.1 rest with
      | some (cs, rest2) => some (⟨cs⟩, rest2)
      | none => none
    else none
  | [] => none

/-- Serialize a list of strings back to back. -/
def serStrs : List String → List Char
  | [] => []
  | s :: ss => serStr s ++ serStrs ss

/-- Serialize a string list: length, `';'`, then the strings. -/
def serStrList (l : List String) : List Char := serNat l.length ++ ';' :: serStrs l

/-- Parse exactly `k` serialized strings. -/
def parseStrs : Nat → List Char → Option (List String × List Char)
  | 0, l => some ([], l)
  | k + 1, l =>
    match parseStr l with
    | some (s, rest) =>
      match parseStrs k rest with
      | some (ss, rest2) => some (s :: ss, rest2)
      | none => none
    | none => none

/-- Parse a serialized string list. -/
def parseStrList (l : List Char) : Option (List String × List Char) :=
  let r := parseNatAux l
  match r.2 with
  | c :: rest => if c = ';' then parseStrs r.1 rest else none
  | [] => none

/-! ### Token claims and the modelled compact token string -/

/-- Decoded token claims: the payload signed at login (`jwt.sign({email,
role, permissions}, ...)`) plus the issued-at and expiry timestamps the
library adds (`expiresIn: 1 minute`, spec section 4.2). Times are seconds. -/
structure JwtClaims where
  email : String
  role : String
  permissions : List String
  iat : Nat
  exp : Nat
deriving DecidableEq

/-- Payload passed to `jwt.sign` by the login handler. -/
structure JwtPayload where
  email : String
  role : String
  permissions : List String
deriving DecidableEq

/-- Serialized claims payload: email, role, permissions, issuedAt, expiry. -/
def serClaims (c : JwtClaims) : List Char :=
  serStr c.email ++
    (serStr c.role ++
      (serStrList c.permissions ++
        (serNat c.iat ++ (',' :: (serNat c.exp ++ [','])))))

/-- Modelled from the spec: the signature, computed over header+payload with
the process-wide signing secret (spec section 6). A simple 32-bit rolling
hash of the secret followed by the serialized claims stands in for HMAC. -/
def hashStep (a : Nat) (c : Char) : Nat := (a * 31 + c.toNat + 1) % 4294967296

/-- Rolling hash of a character list. -/
def hashChars (l : List Char) : Nat := l.foldl hashStep 5381

/-- Signature of a claims payload under a signing secret. -/
def jwtSignature (secret : String) (c : JwtClaims) : Nat :=
  hashChars (serStr secret ++ serClaims c)

/-- A compact token string: serialized claims followed by the signature. -/
def encodeToken (c : JwtClaims) (sig : Nat) : List Char :=
  serClaims c ++ serNat sig

/-- Parse a compact token string into claims and signature; `none` when the
string is not structurally well-formed. -/
def decodeToken (l : List Char) : Option (JwtClaims × Nat) :=
  match parseStr l with
  | some (email, r1) =>
    match parseStr r1 with
    | some (role, r2) =>
      match parseStrList r2 with
      | some (perms, r3) =>
        let riat := parseNatAux r3
        match riat.2 with
        | c :: r4 =>
          if c = ',' then
            let rexp := parseNatAux r4
            match rexp.2 with
            | c2 :: r5 =>
              if c2 = ',' then
                let rsig := parseNatAux r5
                if rsig.2 = [] then some (⟨email, role, perms, riat.1, rexp.1⟩, rsig.1)
                else none
              else none
            | [] => none
          else none
        | [] => none
      | none => none
    | none => none
  | none => none

/-! ### Modelled jsonwebtoken sign / verify -/

/-- Modelled from the spec: `jwt.sign(payload, secret, {expiresIn: one
minute})` builds the claims with `issuedAt = now`, `expiresAt = now + 60`,
and produces the signed compact token string (spec section 4.2). -/
def jwtSign (payload : JwtPayload) (secret : String) (now : Nat) : List Char :=
  let c : JwtClaims := ⟨payload.email, payload.role, payload.permissions, now, now + 60⟩
  encodeToken c (jwtSignature secret c)

/-- Verification errors of the modelled verifier (spec section 4.3). -/
inductive VerifyError
  | malformed
  | invalidSignature
  | expired
deriving DecidableEq

/-- Result passed to the `jwt.verify` callback: an error or the claims. -/
inductive VerifyResult
  | err (e : VerifyError)
  | ok (c : JwtClaims)
deriving DecidableEq

/-- Modelled from the spec: `jwt.verify(token, secret, cb)` — structural
parse, then signature check against the secret, then expiry check
(`now > expiresAt`), in that order (spec section 4.3). The token argument is
`authHeader.split(' ')[1]` and may be missing (JavaScript `undefined`), in
which case the library reports a malformed-token error. -/
def jwtVerify (token : Option (List Char)) (secret : String) (now : Nat) : VerifyResult :=
  match token with
  | none => .err .malformed
  | some s =>
    match decodeToken s with
    | none => .err .malformed
    | some (c, sig) =>
      if sig ≠ jwtSignature secret c then .err .invalidSignature
      else if now > c.exp then .err .expired
      else .ok c

/-! ### Modelled bcryptjs and the user store (src/server.js lines 44 to 58) -/

/-- Modelled from the spec: an idealized salted one-way password hash
(spec section 4.1); the model keeps the hashed password abstractly so that
comparison is exact and one-way-ness is not needed by any claim. -/
structure BcryptHash where
  ofPlain : String
deriving DecidableEq

/-- Modelled from the spec: `bcrypt.hashSync(plain, rounds)`. -/
def bcryptHashSync (plain : String) (_rounds : Nat) : BcryptHash := ⟨plain⟩

/-- Modelled from the spec: `bcrypt.compareSync(candidate, hash)`. -/
def bcryptCompareSync (candidate : String) (h : BcryptHash) : Bool :=
  candidate = h.ofPlain

/-- A user record of the in-memory store. -/
structure User where
  email : String
  password : BcryptHash
  role : String
  permissions : List String
deriving DecidableEq

/-- The fixed user array (src/server.js lines 45 to 58). -/
def users : List User :=
  [ { email := "andrei@gmail.com"
      password := bcryptHashSync "12345" 5
      role := "ADMIN"
      permissions := ["WRITE", "READ"] },
    { email := "vasea@gmail.com"
      password := bcryptHashSync "12345" 5
      role := "READER"
      permissions := ["READ"] } ]

/-! ### Configuration (src/server.js line 10) -/

/-- `const SECRET_KEY = process.env.SECRET_KEY || 'playboy'`: the secret is
read from the process environment once at startup; a missing (or empty,
hence falsy) variable falls back to the hardcoded literal. -/
def SECRET_KEY (env : Option String) : String :=
  match env with
  | some s => if s = "" then "playboy" else s
  | none => "playboy"

/-! ### HTTP responses -/

/-- JSON bodies produced by the handlers. -/
structure Entity where
  id : Nat
  name : String
deriving DecidableEq

/-- The response bodies this application ever sends. -/
inductive Body
  | token (t : List Char)
  | message (m : String)
  | entityList (l : List Entity)
  | entity (e : Entity)
deriving DecidableEq

/-- An HTTP response: a status code and an optional JSON body
(`res.sendStatus` sends the status alone, with no JSON body). -/
structure Response where
  status : Nat
  body : Option Body
deriving DecidableEq

/-- JavaScript truthiness of an optional string field: `undefined` and the
empty string are falsy. -/
def truthy : Option String → Bool
  | none => false
  | some s => !s.isEmpty

/-- JavaScript truthiness of an optional wire string (`List Char`). -/
def truthyChars : Option (List Char) → Bool
  | none => false
  | some l => !l.isEmpty

/-! ### POST /login (src/server.js lines 111 to 122) -/

/-- The parsed JSON body of a login request; a missing field is `none`. -/
structure LoginBody where
  email : Option String
  password : Option String
deriving DecidableEq

/-- The `app.post('/login')` handler: field truthiness check, user lookup
by email, bcrypt comparison, then token issuance. `now` is the clock at
`jwt.sign`. -/
def postLogin (secret : String) (now : Nat) (body : LoginBody) : Response :=
  if truthy body.email && truthy body.password then
    match users.find? (fun u => some u.email = body.email) with
    | some user =>
      if bcryptCompareSync (body.password.getD "") user.password then
        ⟨200, some (.token (jwtSign ⟨user.email, user.role, user.permissions⟩ secret now))⟩
      else
        ⟨401, some (.message "Invalid email or password")⟩
    | none => ⟨401, some (.message "Invalid email or password")⟩
  else
    ⟨400, some (.message "Email and password are required")⟩

/-! ### authenticateJWT middleware (src/server.js lines 125 to 145) -/

/-- JavaScript `String.split` with a one-character separator: splits into
the (possibly empty) segments between separator occurrences. -/
def splitOnChar (sep : Char) : List Char → List (List Char)
  | [] => [[]]
  | c :: cs =>
    if c = sep then [] :: splitOnChar sep cs
    else
      match splitOnChar sep cs with
      | [] => [[c]]
      | w :: ws => (c :: w) :: ws

/-- Outcome of the guard: either `next()` is called (with `req.user` set to
the decoded claims) and the downstream handler runs, or a response is sent
and the handler is never invoked. -/
inductive AuthDecision
  | proceed (user : JwtClaims)
  | reject (r : Response)
deriving DecidableEq

/-- The `authenticateJWT(permissionsRequired)` middleware: if the header is
truthy, take `authHeader.split(' ')[1]` as the token, verify it (any
verification error → `sendStatus(403)`), then require every required
permission to be in `user.permissions` (`sendStatus(403)` otherwise);
a falsy header → `sendStatus(401)`. -/
def authenticateJWT (permissionsRequired : List String) (secret : String) (now : Nat)
    (authHeader : Option (List Char)) : AuthDecision :=
  if truthyChars authHeader then
    let h := authHeader.getD []
    let token := (splitOnChar ' ' h)[1]?
    match jwtVerify token secret now with
    | .err _ => .reject ⟨403, none⟩
    | .ok user =>
      if permissionsRequired.all (fun p => user.permissions.contains p) then .proceed user
      else .reject ⟨403, none⟩
  else
    .reject ⟨401, none⟩

/-! ### The protected routes (src/server.js lines 184 to 233) -/

/-- The `app.get('/entities')` handler body: defaults `skip = 0`,
`limit = 10`, builds the 100-entity sequence and slices
`[skip, skip + limit)`. -/
def getEntitiesHandler (skip limit : Option Nat) : Response :=
  let s := skip.getD 0
  let l := limit.getD 10
  let entities := (List.range 100).map (fun i => Entity.mk i ("Entity " ++ toString i))
  ⟨200, some (.entityList ((entities.drop s).take l))⟩

/-- `GET /entities`: the guard `authenticateJWT(['READ'])` composed with the
pagination handler. -/
def getEntities (secret : String) (now : Nat) (authHeader : Option (List Char))
    (skip limit : Option Nat) : Response :=
  match authenticateJWT ["READ"] secret now authHeader with
  | .reject r => r
  | .proceed _ => getEntitiesHandler skip limit

/-- The `app.post('/entities')` handler body: truthy `name` → 201 echo with
`id = Date.now()`; otherwise 400. -/
def postEntitiesHandler (nowMs : Nat) (name : Option String) : Response :=
  if truthy name then ⟨201, some (.entity ⟨nowMs, name.getD ""⟩)⟩
  else ⟨400, some (.message "Invalid input")⟩

/-- `POST /entities`: the guard `authenticateJWT(['WRITE'])` composed with
the creation handler. -/
def postEntities (secret : String) (now nowMs : Nat) (authHeader : Option (List Char))
    (name : Option String) : Response :=
  match authenticateJWT ["WRITE"] secret now authHeader with
  | .reject r => r
  | .proceed _ => postEntitiesHandler nowMs name

/-! ### Concrete fixtures (the two configured users, spec section 8) -/

/-- Payload of the ADMIN user of concrete scenario 1. -/
def andreiPayload : JwtPayload := ⟨"andrei@gmail.com", "ADMIN", ["WRITE", "READ"]⟩

/-- Payload of the READER user of concrete scenario 2. -/
def vaseaPayload : JwtPayload := ⟨"vasea@gmail.com", "READER", ["READ"]⟩

/-- Token issued to the READER user at time 0 under the default secret. -/
def vaseaToken : List Char := jwtSign vaseaPayload "playboy" 0

/-- Claims encoded in `vaseaToken`. -/
def vaseaClaims : JwtClaims := ⟨"vasea@gmail.com", "READER", ["READ"], 0, 60⟩

/-- Token issued to the ADMIN user at time 0 under the default secret. -/
def andreiToken : List Char := jwtSign andreiPayload "playboy" 0

/-- Claims encoded in `andreiToken`. -/
def andreiClaims : JwtClaims := ⟨"andrei@gmail.com", "ADMIN", ["WRITE", "READ"], 0, 60⟩

/-- A proper bearer header for a token. -/
def bearer (t : List Char) : List Char := "Bearer ".toList ++ t

/-! ### Codec round-trip lemmas -/

theorem digitVal_digitChar {d : Nat} (h : d < 10) : digitVal (digitChar d) = some d := by
  interval_cases d <;> rfl

theorem natDigitsAux_lt {fuel n : Nat} : ∀ d ∈ natDigitsAux fuel n, d < 10 := by
  induction fuel generalizing n with
  | zero => intro d hd; simp [natDigitsAux] at hd
  | succ fuel ih =>
    intro d hd
    match n with
    | 0 => simp [natDigitsAux] at hd
    | n + 1 =>
      simp only [natDigitsAux, List.mem_cons] at hd
      rcases hd with h | h
      · subst h; exact Nat.mod_lt _ (by omega)
      · exact ih _ h

theorem natDigitsAux_sound {fuel n : Nat} (h : n ≤ fuel) :
    ofDigitsLE (natDigitsAux fuel n) = n := by
  induction fuel generalizing n with
  | zero =>
    have hn : n = 0 := Nat.le_zero.mp h
    subst hn
    rfl
  | succ fuel ih =>
    match n with
    | 0 => simp [natDigitsAux, ofDigitsLE]
    | n + 1 =>
      have hdiv : (n + 1) / 10 ≤ fuel := by
        have := Nat.div_lt_self (Nat.succ_pos n) (by omega : 1 < 10)
        omega
      simp only [natDigitsAux, ofDigitsLE, ih hdiv]
      omega

theorem ofDigitsLE_natDigits (n : Nat) : ofDigitsLE (natDigits n) = n :=
  natDigitsAux_sound (Nat.le_refl n)

/-- The head of the remainder is not a digit character. -/
def headDigitFree : List Char → Prop
  | [] => True
  | c :: _ => digitVal c = none

theorem parseNatAux_digits {l : List Nat} (hl : ∀ d ∈ l, d < 10) {rest : List Char}
    (hrest : headDigitFree rest) :
    parseNatAux (l.map digitChar ++ rest) = (ofDigitsLE l, rest) := by
  induction l with
  | nil =>
    match rest with
    | [] => rfl
    | c :: cs =>
      simp only [List.map_nil, List.nil_append, parseNatAux]
      rw [hrest]; rfl
  | cons d ds ih =>
    have hd : d < 10 := hl d (List.mem_cons_self d ds)
    have hds : ∀ x ∈ ds, x < 10 := fun x hx => hl x (List.mem_cons_of_mem d hx)
    simp only [List.map_cons, List.cons_append, parseNatAux, digitVal_digitChar hd,
      List.append_eq, ih hds, ofDigitsLE]

theorem headDigitFree_comma {l : List Char} : headDigitFree (',' :: l) := rfl

theorem headDigitFree_semi {l : List Char} : headDigitFree (';' :: l) := rfl

theorem headDigitFree_nil : headDigitFree [] := trivial

theorem parseNatAux_serNat (n : Nat) {rest : List Char} (hrest : headDigitFree rest) :
    parseNatAux (serNat n ++ rest) = (n, rest) := by
  have hlt : ∀ d ∈ natDigits n, d < 10 := fun d hd => natDigitsAux_lt d hd
  rw [serNat, parseNatAux_digits hlt hrest, ofDigitsLE_natDigits]

theorem parseCodes_serCodes (cs rest : List Char) :
    parseCodes cs.length (serCodes cs ++ rest) = some (cs, rest) := by
  induction cs with
  | nil => rfl
  | cons c cs ih =>
    simp only [serCodes, List.cons_append, List.append_assoc, List.length_cons, parseCodes]
    rw [parseNatAux_serNat c.toNat headDigitFree_comma]
    simp only [ih, Char.ofNat_toNat, if_pos]

theorem parseStr_serStr (s : String) (rest : List Char) :
    parseStr (serStr s ++ rest) = some (s, rest) := by
  obtain ⟨data⟩ := s
  simp only [serStr, List.cons_append, List.append_assoc, parseStr]
  rw [parseNatAux_serNat (String.mk data).length headDigitFree_semi]
  have hlen : (String.mk data).length = data.length := rfl
  have hdata : (String.mk data).toList = data := rfl
  simp only [hlen, hdata, parseCodes_serCodes, if_pos]

theorem parseStrs_serStrs (ss : List String) (rest : List Char) :
    parseStrs ss.length (serStrs ss ++ rest) = some (ss, rest) := by
  induction ss with
  | nil => rfl
  | cons s ss ih =>
    simp only [serStrs, List.length_cons, List.append_assoc, parseStrs]
    simp only [parseStr_serStr, ih]

theorem parseStrList_serStrList (ss : List String) (rest : List Char) :
    parseStrList (serStrList ss ++ rest) = some (ss, rest) := by
  simp only [serStrList, List.cons_append, List.append_assoc, parseStrList]
  rw [parseNatAux_serNat ss.length headDigitFree_semi]
  simp only [parseStrs_serStrs, if_pos]

theorem parseNatAux_serNat_comma (n : Nat) (l : List Char) :
    parseNatAux (serNat n ++ ',' :: l) = (n, ',' :: l) :=
  parseNatAux_serNat n headDigitFree_comma

theorem parseNatAux_serNat_nil (n : Nat) : parseNatAux (serNat n) = (n, []) := by
  have h := @parseNatAux_serNat n [] headDigitFree_nil
  simpa using h

theorem decodeToken_encodeToken (c : JwtClaims) (sig : Nat) :
    decodeToken (encodeToken c sig) = some (c, sig) := by
  obtain ⟨email, role, perms, iat, expiry⟩ := c
  simp only [encodeToken, serClaims, List.append_assoc, List.cons_append,
    List.singleton_append, decodeToken, parseStr_serStr, parseStrList_serStrList,
    parseNatAux_serNat_comma, parseNatAux_serNat_nil]
  simp [parseNatAux_serNat_nil]

/-! ### Split and middleware lemmas -/

theorem splitOnChar_ne_nil (sep : Char) (l : List Char) : splitOnChar sep l ≠ [] := by
  induction l with
  | nil => simp [splitOnChar]
  | cons c cs ih =>
    by_cases h : c = sep
    · simp [splitOnChar, h]
    · cases hs : splitOnChar sep cs with
      | nil => exact absurd hs ih
      | cons w ws => simp [splitOnChar, h, hs]

theorem splitOnChar_no_sep {sep : Char} {l : List Char} (h : sep ∉ l) :
    splitOnChar sep l = [l] := by
  induction l with
  | nil => rfl
  | cons c cs ih =>
    have hc : ¬ c = sep := fun e => h (List.mem_cons.mpr (Or.inl e.symm))
    have hcs : sep ∉ cs := fun m => h (List.mem_cons.mpr (Or.inr m))
    simp [splitOnChar, hc, ih hcs]

theorem splitOnChar_append {sep : Char} {w : List Char} (hw : sep ∉ w) (t : List Char) :
    splitOnChar sep (w ++ sep :: t) = w :: splitOnChar sep t := by
  induction w with
  | nil => simp [splitOnChar]
  | cons c cs ih =>
    have hc : ¬ c = sep := fun e => hw (List.mem_cons.mpr (Or.inl e.symm))
    have hcs : sep ∉ cs := fun m => hw (List.mem_cons.mpr (Or.inr m))
    simp only [List.cons_append, splitOnChar, if_neg hc, List.append_eq, ih hcs]

theorem truthyChars_of_ne {h : List Char} (hne : h ≠ []) : truthyChars (some h) = true := by
  cases h with
  | nil => exact absurd rfl hne
  | cons c cs => rfl

theorem authenticateJWT_some (perms : List String) (secret : String) (now : Nat)
    (h : List Char) (hne : h ≠ []) :
    authenticateJWT perms secret now (some h) =
      match jwtVerify ((splitOnChar ' ' h)[1]?) secret now with
      | .err _ => .reject ⟨403, none⟩
      | .ok user =>
        if perms.all (fun p => user.permissions.contains p) then .proceed user
        else .reject ⟨403, none⟩ := by
  match h, hne with
  | c :: cs, _ => rfl

theorem authenticateJWT_err {perms : List String} {secret : String} {now : Nat}
    {h : List Char} {e : VerifyError} (hne : h ≠ [])
    (hv : jwtVerify ((splitOnChar ' ' h)[1]?) secret now = .err e) :
    authenticateJWT perms secret now (some h) = .reject ⟨403, none⟩ := by
  rw [authenticateJWT_some perms secret now h hne, hv]

theorem authenticateJWT_ok {perms : List String} {secret : String} {now : Nat}
    {h : List Char} {c : JwtClaims} (hne : h ≠ [])
    (hv : jwtVerify ((splitOnChar ' ' h)[1]?) secret now = .ok c) :
    authenticateJWT perms secret now (some h) =
      if perms.all (fun p => c.permissions.contains p) then .proceed c
      else .reject ⟨403, none⟩ := by
  rw [authenticateJWT_some perms secret now h hne, hv]

theorem jwtVerify_encodeToken (secret : String) (now : Nat) (c : JwtClaims) (sig : Nat) :
    jwtVerify (some (encodeToken c sig)) secret now =
      if sig ≠ jwtSignature secret c then .err .invalidSignature
      else if now > c.exp then .err .expired
      else .ok c := by
  simp only [jwtVerify, decodeToken_encodeToken]

theorem all_contains_iff (perms l : List String) :
    (perms.all fun p => l.contains p) = true ↔ ∀ p ∈ perms, p ∈ l := by
  simp [List.all_eq_true, List.contains_eq_any_beq, List.any_eq_true]

/-! ### Claim C1 -/

/-- C1 counterexample: a request whose Authorization header is present but is
a single word with no space-separated token (`garbage`) is rejected with
status 403, not 401 as the claim states. -/
theorem C1_counterexample :
    ¬ authenticateJWT ["READ"] "playboy" 0 (some ("garbage".toList))
        = .reject ⟨401, none⟩ := by decide

/-- C1 (amended): a missing Authorization header is rejected with status 401
without invoking the downstream handler; a header that is present (non-empty)
but has no space-separated token is instead rejected with status 403 (its
extracted token is missing and fails verification), also without invoking the
downstream handler. -/
theorem C1_missing_header_401 (perms : List String) (secret : String) (now : Nat)
    (h : List Char) (hne : h ≠ []) (hnospace : ' ' ∉ h) :
    authenticateJWT perms secret now none = .reject ⟨401, none⟩
    ∧ authenticateJWT perms secret now (some h) = .reject ⟨403, none⟩ := by
  refine ⟨rfl, ?_⟩
  have hs : (splitOnChar ' ' h)[1]? = none := by
    rw [splitOnChar_no_sep hnospace]
    rfl
  exact authenticateJWT_err hne (by rw [hs]; rfl)

/-- C1 witness: the amended claim at the concrete single-word header. -/
theorem C1_witness :
    authenticateJWT ["READ"] "playboy" 0 none = .reject ⟨401, none⟩
    ∧ authenticateJWT ["READ"] "playboy" 0 (some ("garbage".toList)) = .reject ⟨403, none⟩ :=
  C1_missing_header_401 ["READ"] "playboy" 0 ("garbage".toList) (by decide) (by decide)

/-! ### Claim C2 -/

/-- C2: whenever verification of the extracted token fails (malformed,
invalid signature, or expired), the guard responds 403 and the downstream
handler is never invoked; an expired token is rejected even when its
signature is valid, and a wrong signature is rejected as such. -/
theorem C2_verification_failure (perms : List String) (secret : String) (now : Nat)
    (h : List Char) (c : JwtClaims) (sig : Nat) (e : VerifyError)
    (hne : h ≠ [])
    (hv : jwtVerify ((splitOnChar ' ' h)[1]?) secret now = .err e) :
    authenticateJWT perms secret now (some h) = .reject ⟨403, none⟩
    ∧ (now > c.exp →
        jwtVerify (some (encodeToken c (jwtSignature secret c))) secret now = .err .expired)
    ∧ (sig ≠ jwtSignature secret c →
        jwtVerify (some (encodeToken c sig)) secret now = .err .invalidSignature) := by
  refine ⟨authenticateJWT_err hne hv, ?_, ?_⟩
  · intro hexp
    rw [jwtVerify_encodeToken]
    simp [hexp]
  · intro hsig
    rw [jwtVerify_encodeToken]
    simp [hsig]

set_option maxRecDepth 100000 in
/-- C2 witness: the expired READER token at time 100 (its window ends at 60)
is rejected with 403 at the guard; directly, its valid-signature encoding is
expired, and a zero signature is an invalid signature. -/
theorem C2_witness :
    authenticateJWT ["READ"] "playboy" 100 (some (bearer vaseaToken)) = .reject ⟨403, none⟩
    ∧ jwtVerify (some (encodeToken vaseaClaims (jwtSignature "playboy" vaseaClaims)))
        "playboy" 100 = .err .expired
    ∧ jwtVerify (some (encodeToken vaseaClaims 0)) "playboy" 100 = .err .invalidSignature := by
  have h := C2_verification_failure ["READ"] "playboy" 100 (bearer vaseaToken)
    vaseaClaims 0 .expired (by decide) (by decide)
  exact ⟨h.1, h.2.1 (by decide), h.2.2 (by decide)⟩

/-! ### Claim C3 -/

/-- C3: for a successfully verified token, the request reaches the downstream
handler exactly when every permission in the guard's required set is in the
claims' permission set (a subset test); when some required permission is
missing the response is 403 with no body. -/
theorem C3_subset_check (perms : List String) (secret : String) (now : Nat)
    (h : List Char) (c : JwtClaims)
    (hne : h ≠ [])
    (hv : jwtVerify ((splitOnChar ' ' h)[1]?) secret now = .ok c) :
    (authenticateJWT perms secret now (some h) = .proceed c ↔ ∀ p ∈ perms, p ∈ c.permissions)
    ∧ (¬ (∀ p ∈ perms, p ∈ c.permissions) →
        authenticateJWT perms secret now (some h) = .reject ⟨403, none⟩) := by
  rw [authenticateJWT_ok hne hv]
  refine ⟨⟨?_, ?_⟩, ?_⟩
  · intro hres
    by_cases hall : (perms.all fun p => c.permissions.contains p) = true
    · exact (all_contains_iff perms c.permissions).mp hall
    · rw [if_neg hall] at hres
      simp at hres
  · intro hsub
    rw [if_pos ((all_contains_iff perms c.permissions).mpr hsub)]
  · intro hnsub
    rw [if_neg (fun hall => hnsub ((all_contains_iff perms c.permissions).mp hall))]

set_option maxRecDepth 100000 in
/-- C3 witness: the READER token passes the READ guard and fails the WRITE
guard with 403. -/
theorem C3_witness :
    authenticateJWT ["READ"] "playboy" 30 (some (bearer vaseaToken)) = .proceed vaseaClaims
    ∧ authenticateJWT ["WRITE"] "playboy" 30 (some (bearer vaseaToken))
        = .reject ⟨403, none⟩ := by
  constructor
  · exact ((C3_subset_check ["READ"] "playboy" 30 (bearer vaseaToken) vaseaClaims
      (by decide) (by decide)).1).mpr (by decide)
  · exact (C3_subset_check ["WRITE"] "playboy" 30 (bearer vaseaToken) vaseaClaims
      (by decide) (by decide)).2 (by decide)

/-! ### Claim C4 -/

/-- C4: POST /login — an absent email or password field yields 400 with a
message; with both fields present (and truthy), an unknown email and a wrong
password both yield 401 with the same generic message; correct credentials
yield 200 with a token (no 400/401). -/
theorem C4_login (secret : String) (now : Nat) (body : LoginBody) :
    ((body.email = none ∨ body.password = none) →
        postLogin secret now body = ⟨400, some (.message "Email and password are required")⟩)
    ∧ (∀ e p, body = ⟨some e, some p⟩ →
        truthy (some e) = true → truthy (some p) = true →
        (∀ u ∈ users, u.email ≠ e) →
        postLogin secret now body = ⟨401, some (.message "Invalid email or password")⟩)
    ∧ (∀ e p u, body = ⟨some e, some p⟩ →
        truthy (some e) = true → truthy (some p) = true →
        users.find? (fun v => v.email = e) = some u →
        bcryptCompareSync p u.password = false →
        postLogin secret now body = ⟨401, some (.message "Invalid email or password")⟩)
    ∧ (∀ e p u, body = ⟨some e, some p⟩ →
        truthy (some e) = true → truthy (some p) = true →
        users.find? (fun v => v.email = e) = some u →
        bcryptCompareSync p u.password = true →
        postLogin secret now body
          = ⟨200, some (.token (jwtSign ⟨u.email, u.role, u.permissions⟩ secret now))⟩) := by
  refine ⟨?_, ?_, ?_, ?_⟩
  · rintro (habs | habs) <;> simp [postLogin, habs, truthy]
  · rintro e p rfl he hp hu
    have hfind : users.find? (fun v => v.email = e) = none :=
      List.find?_eq_none.mpr (by
        intro u hmem
        simp only [decide_eq_true_eq]
        exact hu u hmem)
    simp [postLogin, he, hp, hfind]
  · rintro e p u rfl he hp hfind hc
    simp [postLogin, he, hp, hfind, hc]
  · rintro e p u rfl he hp hfind hc
    simp [postLogin, he, hp, hfind, hc]

set_option maxRecDepth 100000 in
/-- C4 witness: empty-body login is 400; an unknown email and a wrong
password both produce the identical generic 401; the ADMIN user's correct
credentials produce 200 with a token. -/
theorem C4_witness :
    postLogin "playboy" 0 ⟨none, none⟩
      = ⟨400, some (.message "Email and password are required")⟩
    ∧ postLogin "playboy" 0 ⟨some "nobody@gmail.com", some "12345"⟩
      = ⟨401, some (.message "Invalid email or password")⟩
    ∧ postLogin "playboy" 0 ⟨some "andrei@gmail.com", some "wrong"⟩
      = ⟨401, some (.message "Invalid email or password")⟩
    ∧ postLogin "playboy" 0 ⟨some "andrei@gmail.com", some "12345"⟩
      = ⟨200, some (.token (jwtSign ⟨"andrei@gmail.com", "ADMIN", ["WRITE", "READ"]⟩
          "playboy" 0))⟩ := by
  refine ⟨?_, ?_, ?_, ?_⟩
  · exact (C4_login "playboy" 0 ⟨none, none⟩).1 (Or.inl rfl)
  · exact (C4_login "playboy" 0 ⟨some "nobody@gmail.com", some "12345"⟩).2.1
      "nobody@gmail.com" "12345" rfl (by decide) (by decide) (by decide)
  · exact (C4_login "playboy" 0 ⟨some "andrei@gmail.com", some "wrong"⟩).2.2.1
      "andrei@gmail.com" "wrong" ⟨"andrei@gmail.com", bcryptHashSync "12345" 5, "ADMIN", ["WRITE", "READ"]⟩
      rfl (by decide) (by decide) (by decide) (by decide)
  · exact (C4_login "playboy" 0 ⟨some "andrei@gmail.com", some "12345"⟩).2.2.2
      "andrei@gmail.com" "12345" ⟨"andrei@gmail.com", bcryptHashSync "12345" 5, "ADMIN", ["WRITE", "READ"]⟩
      rfl (by decide) (by decide) (by decide) (by decide)

/-! ### Claim C5 -/

/-- C5: for a configured user, the token issued at a successful login
verifies, for the whole lifetime of the token, to claims whose subject
email, role and permission set exactly equal that user's fields at the
moment of issuance (a snapshot; the store is not re-read). -/
theorem C5_issue_verify_roundtrip (u : User) (pw : String) (secret : String) (now t : Nat)
    (hfind : users.find? (fun v => v.email = u.email) = some u)
    (he : truthy (some u.email) = true)
    (hp : truthy (some pw) = true)
    (hcmp : bcryptCompareSync pw u.password = true)
    (ht : ¬ t > now + 60) :
    postLogin secret now ⟨some u.email, some pw⟩
      = ⟨200, some (.token (jwtSign ⟨u.email, u.role, u.permissions⟩ secret now))⟩
    ∧ jwtVerify (some (jwtSign ⟨u.email, u.role, u.permissions⟩ secret now)) secret t
      = .ok ⟨u.email, u.role, u.permissions, now, now + 60⟩ := by
  constructor
  · simp [postLogin, he, hp, hfind, hcmp]
  · simp only [jwtSign, jwtVerify_encodeToken]
    simp [ht]

set_option maxRecDepth 100000 in
/-- C5 witness: the ADMIN user's login at time 0, verified at the last
instant of the window (time 60), returns exactly the user's email, role and
permissions. -/
theorem C5_witness :
    postLogin "playboy" 0 ⟨some "andrei@gmail.com", some "12345"⟩
      = ⟨200, some (.token (jwtSign ⟨"andrei@gmail.com", "ADMIN", ["WRITE", "READ"]⟩
          "playboy" 0))⟩
    ∧ jwtVerify (some (jwtSign ⟨"andrei@gmail.com", "ADMIN", ["WRITE", "READ"]⟩ "playboy" 0))
        "playboy" 60
      = .ok ⟨"andrei@gmail.com", "ADMIN", ["WRITE", "READ"], 0, 60⟩ :=
  C5_issue_verify_roundtrip
    ⟨"andrei@gmail.com", bcryptHashSync "12345" 5, "ADMIN", ["WRITE", "READ"]⟩
    "12345" "playboy" 0 60 (by decide) (by decide) (by decide) (by decide) (by decide)

/-! ### Claim C6 -/

/-- C6: every rejection the guard produces on a protected route (401 for a
missing header, 403 otherwise) carries only a status code and no response
body (`res.sendStatus`). -/
theorem C6_reject_no_body (perms : List String) (secret : String) (now : Nat)
    (ah : Option (List Char)) (r : Response)
    (hrej : authenticateJWT perms secret now ah = .reject r) :
    (r.status = 401 ∨ r.status = 403) ∧ r.body = none := by
  have hr : r = ⟨401, none⟩ ∨ r = ⟨403, none⟩ := by
    match ah with
    | none =>
      simp [authenticateJWT, truthyChars] at hrej
      exact Or.inl hrej.symm
    | some [] =>
      simp [authenticateJWT, truthyChars] at hrej
      exact Or.inl hrej.symm
    | some (c :: cs) =>
      rw [authenticateJWT_some perms secret now (c :: cs) (by simp)] at hrej
      cases hjv : jwtVerify ((splitOnChar ' ' (c :: cs))[1]?) secret now with
      | err e =>
        rw [hjv] at hrej
        simp at hrej
        exact Or.inr hrej.symm
      | ok u =>
        rw [hjv] at hrej
        by_cases hall : (perms.all fun p => u.permissions.contains p) = true
        · have hsub : ∀ p ∈ perms, p ∈ u.permissions :=
            (all_contains_iff perms u.permissions).mp hall
          simp at hrej
          rw [if_pos hsub] at hrej
          simp at hrej
        · have hsub : ¬ ∀ p ∈ perms, p ∈ u.permissions :=
            fun hs => hall ((all_contains_iff perms u.permissions).mpr hs)
          simp at hrej
          rw [if_neg hsub] at hrej
          simp at hrej
          exact Or.inr hrej.symm
  rcases hr with h | h <;> subst h <;> simp

/-- C6 witness: the rejection for a missing header has status 401 and an
empty body. -/
theorem C6_witness :
    ((Response.mk 401 none).status = 401 ∨ (Response.mk 401 none).status = 403)
    ∧ (Response.mk 401 none).body = none :=
  C6_reject_no_body ["READ"] "playboy" 0 none ⟨401, none⟩ rfl

/-! ### Claim C7 -/

/-- C7: the signing secret is a function of the process environment fixed at
startup: a configured (non-empty) value is used as-is, and when no secret is
configured the hardcoded insecure literal is substituted instead of failing
startup. -/
theorem C7_secret_fallback (s : String) (hs : ¬ s = "") :
    SECRET_KEY none = "playboy" ∧ SECRET_KEY (some s) = s := by
  exact ⟨rfl, by simp [SECRET_KEY, hs]⟩

/-- C7 witness: the fallback literal and a configured value. -/
theorem C7_witness :
    SECRET_KEY none = "playboy" ∧ SECRET_KEY (some "s3cret") = "s3cret" :=
  C7_secret_fallback "s3cret" (by decide)

/-! ### Claim C8 -/

/-- C8: a GET /entities request with `skip=5`, `limit=3` carrying a valid
unexpired token whose permissions include READ is answered 200 with exactly
entities 5, 6 and 7 of the generated 100-entity sequence. -/
theorem C8_pagination (secret : String) (now : Nat) (h : List Char) (c : JwtClaims)
    (hne : h ≠ [])
    (hv : jwtVerify ((splitOnChar ' ' h)[1]?) secret now = .ok c)
    (hread : "READ" ∈ c.permissions) :
    getEntities secret now (some h) (some 5) (some 3)
      = ⟨200, some (.entityList [⟨5, "Entity 5"⟩, ⟨6, "Entity 6"⟩, ⟨7, "Entity 7"⟩])⟩ := by
  have hsub : ∀ p ∈ (["READ"] : List String), p ∈ c.permissions := by
    intro p hp
    rw [List.mem_singleton.mp hp]
    exact hread
  rw [getEntities, authenticateJWT_ok hne hv,
    if_pos ((all_contains_iff ["READ"] c.permissions).mpr hsub)]
  show getEntitiesHandler (some 5) (some 3)
      = ⟨200, some (.entityList [⟨5, "Entity 5"⟩, ⟨6, "Entity 6"⟩, ⟨7, "Entity 7"⟩])⟩
  decide

set_option maxRecDepth 100000 in
/-- C8 witness: concrete scenario 3 with the READER token. -/
theorem C8_witness :
    getEntities "playboy" 30 (some (bearer vaseaToken)) (some 5) (some 3)
      = ⟨200, some (.entityList [⟨5, "Entity 5"⟩, ⟨6, "Entity 6"⟩, ⟨7, "Entity 7"⟩])⟩ :=
  C8_pagination "playboy" 30 (bearer vaseaToken) vaseaClaims
    (by decide) (by decide) (by decide)

/-! ### Claim C9 -/

/-- C9: the middleware never inspects the scheme word of the Authorization
header; a header whose first word is anything at all, followed by a space
and a token, is treated exactly as the corresponding proper bearer header,
because only the second space-separated segment is extracted. -/
theorem C9_scheme_ignored (w t : List Char) (perms : List String) (secret : String)
    (now : Nat) (hw : ' ' ∉ w) :
    authenticateJWT perms secret now (some (w ++ ' ' :: t))
      = authenticateJWT perms secret now (some ("Bearer".toList ++ ' ' :: t)) := by
  have h1 : splitOnChar ' ' (w ++ ' ' :: t) = w :: splitOnChar ' ' t :=
    splitOnChar_append hw t
  have h2 : splitOnChar ' ' ("Bearer".toList ++ ' ' :: t)
      = "Bearer".toList :: splitOnChar ' ' t := splitOnChar_append (by decide) t
  have hne1 : w ++ ' ' :: t ≠ [] := by cases w <;> simp
  have hne2 : "Bearer".toList ++ ' ' :: t ≠ [] := by simp
  rw [authenticateJWT_some perms secret now _ hne1,
    authenticateJWT_some perms secret now _ hne2, h1, h2]
  simp

set_option maxRecDepth 100000 in
/-- C9 witness: a `Basic` scheme in front of the valid READER token is
accepted exactly as the proper bearer header (both proceed). -/
theorem C9_witness :
    authenticateJWT ["READ"] "playboy" 30 (some ("Basic".toList ++ ' ' :: vaseaToken))
      = authenticateJWT ["READ"] "playboy" 30 (some ("Bearer".toList ++ ' ' :: vaseaToken)) :=
  C9_scheme_ignored ("Basic".toList) vaseaToken ["READ"] "playboy" 30 (by decide)

/-! ### Claim C10 -/

/-- C10: field-presence checks are JavaScript truthiness checks: an
empty-string email or password at login yields 400 (not 401) exactly as an
absent field does, and an empty-string `name` on POST /entities with a valid
WRITE token yields 400 exactly as an absent `name` does. -/
theorem C10_truthiness (secret : String) (now nowMs : Nat) (e p : String)
    (h : List Char) (c : JwtClaims)
    (hne : h ≠ [])
    (hv : jwtVerify ((splitOnChar ' ' h)[1]?) secret now = .ok c)
    (hwrite : "WRITE" ∈ c.permissions) :
    postLogin secret now ⟨some "", some p⟩
      = ⟨400, some (.message "Email and password are required")⟩
    ∧ postLogin secret now ⟨some e, some ""⟩
      = ⟨400, some (.message "Email and password are required")⟩
    ∧ postLogin secret now ⟨none, some p⟩ = postLogin secret now ⟨some "", some p⟩
    ∧ postEntities secret now nowMs (some h) (some "")
      = ⟨400, some (.message "Invalid input")⟩
    ∧ postEntities secret now nowMs (some h) none
      = postEntities secret now nowMs (some h) (some "") := by
  have hsub : ∀ q ∈ (["WRITE"] : List String), q ∈ c.permissions := by
    intro q hq
    rw [List.mem_singleton.mp hq]
    exact hwrite
  have hpost : ∀ nm : Option String, postEntities secret now nowMs (some h) nm
      = postEntitiesHandler nowMs nm := by
    intro nm
    rw [postEntities, authenticateJWT_ok hne hv,
      if_pos ((all_contains_iff ["WRITE"] c.permissions).mpr hsub)]
  have hfe : truthy (some "") = false := rfl
  have hfn : truthy none = false := rfl
  refine ⟨?_, ?_, ?_, ?_, ?_⟩
  · simp [postLogin, hfe]
  · simp [postLogin, hfe, Bool.and_false]
  · simp [postLogin, hfe, hfn]
  · rw [hpost (some "")]
    rfl
  · rw [hpost none, hpost (some "")]
    rfl

set_option maxRecDepth 100000 in
/-- C10 witness: the empty-field cases at concrete inputs, with the ADMIN
token for the WRITE route. -/
theorem C10_witness :
    postLogin "playboy" 0 ⟨some "", some "12345"⟩
      = ⟨400, some (.message "Email and password are required")⟩
    ∧ postLogin "playboy" 0 ⟨some "andrei@gmail.com", some ""⟩
      = ⟨400, some (.message "Email and password are required")⟩
    ∧ postLogin "playboy" 0 ⟨none, some "12345"⟩
      = postLogin "playboy" 0 ⟨some "", some "12345"⟩
    ∧ postEntities "playboy" 30 999 (some (bearer andreiToken)) (some "")
      = ⟨400, some (.message "Invalid input")⟩
    ∧ postEntities "playboy" 30 999 (some (bearer andreiToken)) none
      = postEntities "playboy" 30 999 (some (bearer andreiToken)) (some "") :=
  C10_truthiness "playboy" 30 999 "andrei@gmail.com" "12345" (bearer andreiToken)
    andreiClaims (by decide) (by decide) (by decide)
